import Mathlib

/-!
# Schedule engine verification

A shallow embedding of the schedule/group engine of the `ubiquiti` frontend
repository, together with proofs about it.

The in-repository authority for schedule and group behaviour is the mock
adapter `src/frontend/src/lib/adapters/mockSchedule.ts` (the first, group-aware
variant of that file: `MockScheduleAdapter` with `groups`,
`scheduleMemberships` and `enforceActivation`), plus the group-form and
schedule-form logic of `src/frontend/src/components/modals/ScheduleModal.tsx`
(`handleSubmitGroup`, `handleSubmit`, `buildRecurrence`).

Modelling conventions:
* JavaScript objects become Lean structures; the adapter's mutable fields
  (`config.schedules`, `groups`, `scheduleMemberships`) become an explicit
  `State` record threaded through every operation.
* `Date.now()` / `new Date().toISOString()` and `Math.random()` (inside
  `generateId`) are nondeterministic; operations take the produced timestamp
  (`now`) and fresh identifier (`freshId`) as explicit parameters.  Where the
  source calls `new Date().toISOString()` several times inside one operation,
  the calls are collapsed to the single `now` parameter; the distinct wall
  clock readings only ever land in `createdAt`/`updatedAt` audit strings.
* A thrown `Error` becomes `Except.error msg` with the source's message text.
  When the source throws after having already mutated state, the claims
  settled here only ever look at operations that complete without error, or at
  operations (like `cloneSchedule`) that throw before their first mutation.
* The JS `Map`/`Set` containers (which iterate in insertion order and cannot
  hold a duplicate key) become association lists / duplicate-free-by-
  construction lists with insertion-order semantics.
-/

/-- `ScheduleAction` of `domain/schedules`: `"lock" | "unlock"`. -/
inductive ScheduleAction where
  | lock
  | unlock
deriving DecidableEq, Repr

/-- `ScheduleScope` of `domain/schedules`: `"owner" | "global"`. -/
inductive ScheduleScope where
  | owner
  | global
deriving DecidableEq, Repr

/-- `ScheduleRecurrenceType`: `"one_shot" | "daily" | "weekly" | "monthly"`. -/
inductive ScheduleRecurrenceType where
  | one_shot
  | daily
  | weekly
  | monthly
deriving DecidableEq, Repr

/-- `ScheduleWindow {start, end}` (ISO-8601 strings).  The `end` field is
renamed `endTs` because `end` is a Lean keyword. -/
structure ScheduleWindow where
  start : String
  endTs : String
deriving DecidableEq, Repr

/-- `ScheduleRecurrence`: a record with optional fields, exactly as the
TypeScript interface declares it (not the spec's tagged union).
`until?: string | null` is modelled as `Option String` (none for
null/absent) and renamed `untilTs` because `until` is a Lean keyword. -/
structure ScheduleRecurrence where
  type : ScheduleRecurrenceType
  interval : Option Int := none
  daysOfWeek : Option (List String) := none
  dayOfMonth : Option Int := none
  untilTs : Option String := none
deriving DecidableEq, Repr

/-- `ScheduleException {date, reason?, skip?, overrideWindow?}`. -/
structure ScheduleException where
  date : String
  reason : Option String := none
  skip : Option Bool := none
  overrideWindow : Option ScheduleWindow := none
deriving DecidableEq, Repr

/-- `ScheduleTarget {devices, tags}`. -/
structure ScheduleTarget where
  devices : List String
  tags : List String
deriving DecidableEq, Repr

/-- `DeviceSchedule` as normalised by the `MockScheduleAdapter` constructor:
every schedule carries a `groupIds : string[]` list. -/
structure DeviceSchedule where
  id : String
  scope : ScheduleScope
  ownerKey : Option String := none
  groupIds : List String := []
  label : String
  description : Option String := none
  targets : ScheduleTarget
  action : ScheduleAction
  endAction : Option ScheduleAction := none
  window : ScheduleWindow
  recurrence : ScheduleRecurrence
  exceptions : List ScheduleException := []
  enabled : Bool
  createdAt : String
  updatedAt : String
deriving DecidableEq, Repr

/-- `InternalGroup` of `mockSchedule.ts`.  `scheduleIds : Set<string>`
becomes an insertion-ordered, duplicate-free list. -/
structure InternalGroup where
  id : String
  name : String
  ownerKey : Option String := none
  description : Option String := none
  isActive : Bool
  createdAt : String
  updatedAt : String
  scheduleIds : List String := []
deriving DecidableEq, Repr

/-- The adapter's mutable state: `config.schedules`, `groups` (a `Map`
iterated in insertion order) and `scheduleMemberships`
(`Map<string, Set<string>>`, schedule id to the ids of its groups). -/
structure State where
  schedules : List DeviceSchedule
  groups : List InternalGroup
  memberships : List (String × List String)
deriving DecidableEq, Repr

/-- `Set.add`: append if not present (JS sets keep insertion order). -/
def setInsert (l : List String) (x : String) : List String :=
  if x ∈ l then l else l ++ [x]

/-- `Set.delete`: remove every occurrence. -/
def setRemove (l : List String) (x : String) : List String :=
  l.filter (fun y => !(decide (y = x)))

/-- `new Set(array)`: deduplicate, keeping first occurrences in order. -/
def dedup (l : List String) : List String :=
  l.foldl setInsert []

/-- `this.config.schedules.find((schedule) => schedule.id === scheduleId)`. -/
def findSchedule (s : State) (scheduleId : String) : Option DeviceSchedule :=
  s.schedules.find? (fun sch => decide (sch.id = scheduleId))

/-- `this.groups.get(groupId)` (ids are unique in any state the adapter
builds; on a duplicate this takes the first). -/
def findGroup (s : State) (groupId : String) : Option InternalGroup :=
  s.groups.find? (fun g => decide (g.id = groupId))

/-- Rewrite the schedule with the given id in place (the source mutates the
object found inside `config.schedules`). -/
def updateScheduleIn (s : State) (scheduleId : String)
    (f : DeviceSchedule → DeviceSchedule) : State :=
  { s with schedules := s.schedules.map fun sch =>
      if sch.id = scheduleId then f sch else sch }

/-- Rewrite the group with the given id in place. -/
def updateGroupIn (s : State) (groupId : String)
    (f : InternalGroup → InternalGroup) : State :=
  { s with groups := s.groups.map fun g =>
      if g.id = groupId then f g else g }

/-- `scheduleMemberships.get(id) ?? new Set(); add(gid); set(id, …)`:
update the entry in place, or append a fresh one. -/
def msAdd (ms : List (String × List String)) (scheduleId groupId : String) :
    List (String × List String) :=
  match ms.lookup scheduleId with
  | none => ms ++ [(scheduleId, [groupId])]
  | some _ => ms.map fun p =>
      if p.1 = scheduleId then (p.1, setInsert p.2 groupId) else p

/-- `memberships.delete(gid); if (memberships.size === 0) delete the key`. -/
def msRemove (ms : List (String × List String)) (scheduleId groupId : String) :
    List (String × List String) :=
  (ms.map fun p =>
      if p.1 = scheduleId then (p.1, setRemove p.2 groupId) else p).filter
    fun p => !(decide (p.1 = scheduleId) && p.2.isEmpty)

/-- `MockScheduleAdapter.addMembership(group, scheduleId)`.  The caller holds
the group, so only the schedule's existence is checked (`ensureSchedule`). -/
def addMembership (groupId scheduleId now : String) (s : State) :
    Except String State :=
  match findSchedule s scheduleId with
  | none => Except.error s!"Schedule {scheduleId} not found"
  | some sched =>
    let s1 :=
      if groupId ∈ sched.groupIds then s
      else updateScheduleIn s scheduleId fun sch =>
        { sch with groupIds := sch.groupIds ++ [groupId], updatedAt := now }
    let s2 := updateGroupIn s1 groupId fun g =>
      { g with scheduleIds := setInsert g.scheduleIds scheduleId }
    Except.ok { s2 with memberships := msAdd s2.memberships scheduleId groupId }

/-- `MockScheduleAdapter.removeMembership(group, scheduleId)`. -/
def removeMembership (groupId scheduleId now : String) (s : State) :
    Except String State :=
  match findSchedule s scheduleId with
  | none => Except.error s!"Schedule {scheduleId} not found"
  | some sched =>
    let s1 :=
      if groupId ∈ sched.groupIds then
        updateScheduleIn s scheduleId fun sch =>
          { sch with groupIds := sch.groupIds.filter (fun g => !(decide (g = groupId))),
                     updatedAt := now }
      else s
    let s2 := updateGroupIn s1 groupId fun g =>
      { g with scheduleIds := setRemove g.scheduleIds scheduleId }
    Except.ok { s2 with memberships := msRemove s2.memberships scheduleId groupId }

/-- `[...this.groups.values()].filter((g) => g.isActive)` is non-empty. -/
def hasActiveGroup (s : State) : Bool :=
  s.groups.any (fun g => g.isActive)

/-- `activeGroups.has(groupId)`: some active group carries this id. -/
def isActiveGroupId (s : State) (groupId : String) : Bool :=
  s.groups.any (fun g => g.isActive && decide (g.id = groupId))

/-- The per-schedule body of `enforceActivation`: both branches of the source
only ever touch `enabled` (and bump `updatedAt` when `enabled` changes). -/
def enforceOne (hasActive : Bool) (ms : List (String × List String))
    (activeId : String → Bool) (now : String) (sch : DeviceSchedule) :
    DeviceSchedule :=
  if !hasActive then
    -- no active group: disable only the schedules that belong to any group
    if (ms.lookup sch.id).isSome then
      if sch.enabled != false then { sch with enabled := false, updatedAt := now }
      else sch
    else sch
  else
    match ms.lookup sch.id with
    | none => sch
    | some gids =>
      if gids.isEmpty then sch
      else
        -- `shouldEnable` in the source; inlined here
        if sch.enabled != gids.any activeId then
          { sch with enabled := gids.any activeId, updatedAt := now }
        else sch

/-- `MockScheduleAdapter.enforceActivation()`. -/
def enforceActivation (now : String) (s : State) : State :=
  { s with schedules :=
      s.schedules.map (enforceOne (hasActiveGroup s) s.memberships (isActiveGroupId s) now) }

/-- `CreateScheduleInput` (with the `groupIds` the group-aware adapter
reads). -/
structure CreateScheduleInput where
  scope : ScheduleScope
  ownerKey : Option String := none
  groupIds : Option (List String) := none
  label : String
  description : Option String := none
  targets : ScheduleTarget
  action : ScheduleAction
  endAction : Option ScheduleAction := none
  window : ScheduleWindow
  recurrence : ScheduleRecurrence
  exceptions : Option (List ScheduleException) := none
  enabled : Option Bool := none
deriving DecidableEq, Repr

/-- `CreateScheduleGroupInput`.  The group form also submits an
`activeScheduleId`; the mock adapter's `createGroup` never reads it (it reads
`isActive`, which the form never sends). -/
structure CreateScheduleGroupInput where
  name : String
  ownerKey : Option String := none
  description : Option String := none
  scheduleIds : List String
  isActive : Option Bool := none
  activeScheduleId : Option String := none
deriving DecidableEq, Repr

/-- `UpdateScheduleGroupInput` (again, `activeScheduleId` is submitted by the
form but ignored by the mock adapter). -/
structure UpdateScheduleGroupInput where
  groupId : String
  name : Option String := none
  description : Option String := none
  scheduleIds : Option (List String) := none
  isActive : Option Bool := none
  activeScheduleId : Option String := none
deriving DecidableEq, Repr

/-- The `for (const groupId of schedule.groupIds) { ensureGroup; addMembership }`
loop of `createSchedule`. -/
def attachEnsured (scheduleId now : String) :
    List String → State → Except String State
  | [], s => Except.ok s
  | groupId :: rest, s =>
    match findGroup s groupId with
    | none => Except.error s!"Schedule group {groupId} not found"
    | some _ => do
      let s' ← addMembership groupId scheduleId now s
      attachEnsured scheduleId now rest s'

/-- `MockScheduleAdapter.createSchedule(input)`; `generateId` and the clock
are the `freshId`/`now` parameters.  The returned schedule is the stored
object after `enforceActivation` ran (the source returns a deep clone of the
mutated object). -/
def createSchedule (input : CreateScheduleInput) (freshId now : String)
    (s : State) : Except String DeviceSchedule × State :=
  let sched : DeviceSchedule :=
    { id := freshId
      scope := input.scope
      ownerKey := input.ownerKey
      groupIds := input.groupIds.getD []
      label := input.label
      description := input.description
      targets := input.targets
      action := input.action
      endAction := input.endAction
      window := input.window
      recurrence := input.recurrence
      exceptions := input.exceptions.getD []
      enabled := input.enabled.getD true
      createdAt := now
      updatedAt := now }
  let s0 := { s with schedules := s.schedules ++ [sched] }
  match attachEnsured sched.id now sched.groupIds s0 with
  | Except.error e => (Except.error e, s0)
  | Except.ok s1 =>
    let s2 := enforceActivation now s1
    match findSchedule s2 sched.id with
    | some latest => (Except.ok latest, s2)
    | none => (Except.error "unreachable: schedule vanished", s2)

/-- The `for (const groupId of [...schedule.groupIds]) { ensureGroup;
removeMembership }` loop shared by `deleteSchedule` and the replace branch of
`copyOwnerSchedules`. -/
def detachFromGroups (scheduleId now : String) :
    List String → State → Except String State
  | [], s => Except.ok s
  | groupId :: rest, s =>
    match findGroup s groupId with
    | none => Except.error s!"Schedule group {groupId} not found"
    | some _ => do
      let s' ← removeMembership groupId scheduleId now s
      detachFromGroups scheduleId now rest s'

/-- `MockScheduleAdapter.deleteSchedule(scheduleId)`: silently resolves when
the id is unknown; otherwise detaches all memberships, splices the schedule
out, drops its membership entry and re-runs `enforceActivation`. -/
def deleteSchedule (scheduleId now : String) (s : State) : Except String State :=
  match findSchedule s scheduleId with
  | none => Except.ok s
  | some sched =>
    match detachFromGroups scheduleId now sched.groupIds s with
    | Except.error e => Except.error e
    | Except.ok s1 =>
      Except.ok (enforceActivation now
        { s1 with
          schedules := s1.schedules.eraseP (fun sch => decide (sch.id = scheduleId))
          memberships := s1.memberships.filter fun p => !(decide (p.1 = scheduleId)) })

/-- `MockScheduleAdapter.cloneSchedule(scheduleId, targetOwner)`.  Throws
before any mutation when the source schedule is missing, so the state is
returned unchanged in that case. -/
def cloneSchedule (scheduleId targetOwner freshId now : String) (s : State) :
    Except String DeviceSchedule × State :=
  match findSchedule s scheduleId with
  | none => (Except.error s!"Schedule {scheduleId} not found", s)
  | some source =>
    let c : DeviceSchedule :=
      { source with
        id := freshId
        scope := ScheduleScope.owner
        ownerKey := some targetOwner
        groupIds := []
        enabled := true
        createdAt := now
        updatedAt := now }
    (Except.ok c, { s with schedules := s.schedules ++ [c] })

/-- `schedule.scope === "owner" && schedule.ownerKey === ownerKey`. -/
def isOwnerOf (ownerKey : String) (sch : DeviceSchedule) : Bool :=
  decide (sch.scope = ScheduleScope.owner) && decide (sch.ownerKey = some ownerKey)

/-- The replace branch's removal loop: for each schedule slated for removal,
detach it from all of its groups, then delete its membership entry. -/
def purgeSchedules (now : String) :
    List DeviceSchedule → State → Except String State
  | [], s => Except.ok s
  | sch :: rest, s => do
    let s' ← detachFromGroups sch.id now sch.groupIds s
    purgeSchedules now rest
      { s' with memberships := s'.memberships.filter fun p => !(decide (p.1 = sch.id)) }

/-- The clone-all loop of `copyOwnerSchedules` (and the shape of the single
clone in `cloneSchedule`): the `freshId` supply is indexed per iteration.
The source iterates over the schedule objects captured before the replace
removal; the removal only ever rewrites `groupIds`/`updatedAt`, and both are
overwritten by the clone, so iterating over the pre-removal snapshot is
faithful. -/
def cloneList (targetOwner : String) (freshId : Nat → String) (now : String)
    (l : List DeviceSchedule) : List DeviceSchedule :=
  l.enum.map fun p =>
    { p.2 with
      id := freshId p.1
      scope := ScheduleScope.owner
      ownerKey := some targetOwner
      groupIds := []
      enabled := true
      createdAt := now
      updatedAt := now }

/-- `"merge" | "replace"`. -/
inductive CopyMode where
  | merge
  | replace
deriving DecidableEq, Repr

/-- `MockScheduleAdapter.copyOwnerSchedules(sourceOwner, targetOwner, mode)`.
The source removes the replaced schedules with `!toRemove.includes(schedule)`
(reference equality against the list built from the owner predicate); since
the removal loop never touches `scope`/`ownerKey`, this equals filtering by
the owner predicate itself. -/
def copyOwnerSchedules (sourceOwner targetOwner : String) (mode : CopyMode)
    (freshId : Nat → String) (now : String) (s : State) :
    Except String (List DeviceSchedule × Nat) × State :=
  let sourceSchedules := s.schedules.filter (isOwnerOf sourceOwner)
  if sourceSchedules.isEmpty then (Except.ok ([], 0), s)
  else
    let afterReplace : Except String (Nat × State) :=
      match mode with
      | CopyMode.merge => Except.ok (0, s)
      | CopyMode.replace =>
        let toRemove := s.schedules.filter (isOwnerOf targetOwner)
        (purgeSchedules now toRemove s).map fun s' =>
          (toRemove.length,
           { s' with schedules := s'.schedules.filter fun sch => !isOwnerOf targetOwner sch })
    match afterReplace with
    | Except.error e => (Except.error e, s)
    | Except.ok (replacedCount, s1) =>
      let created := cloneList targetOwner freshId now sourceSchedules
      (Except.ok (created, replacedCount),
       { s1 with schedules := s1.schedules ++ created })

/-- The `for (const scheduleId of input.scheduleIds) addMembership(group, …)`
loop of `createGroup`. -/
def attachAll (groupId now : String) :
    List String → State → Except String State
  | [], s => Except.ok s
  | scheduleId :: rest, s => do
    let s' ← addMembership groupId scheduleId now s
    attachAll groupId now rest s'

/-- `MockScheduleAdapter.createGroup(input)` before the final
`enforceActivation`. -/
def createGroupCore (input : CreateScheduleGroupInput) (freshGid now : String)
    (s : State) : Except String State :=
  let g : InternalGroup :=
    { id := freshGid
      ownerKey := input.ownerKey
      name := input.name
      description := input.description
      isActive := input.isActive.getD false
      createdAt := now
      updatedAt := now
      scheduleIds := [] }
  let s0 := { s with groups := s.groups ++ [g] }
  (attachAll freshGid now input.scheduleIds s0).map fun s1 =>
    if (((findGroup s1 freshGid).map InternalGroup.scheduleIds).getD []).isEmpty then
      updateGroupIn s1 freshGid fun gg => { gg with isActive := false }
    else s1

/-- `MockScheduleAdapter.createGroup(input)`. -/
def createGroup (input : CreateScheduleGroupInput) (freshGid now : String)
    (s : State) : Except String State :=
  (createGroupCore input freshGid now s).map (enforceActivation now)

/-- `updateGroup`'s removal pass: for each current member not in the desired
set, `removeMembership`. -/
def removeUnlisted (groupId now : String) (desired : List String) :
    List String → State → Except String State
  | [], s => Except.ok s
  | scheduleId :: rest, s =>
    if scheduleId ∈ desired then removeUnlisted groupId now desired rest s
    else do
      let s' ← removeMembership groupId scheduleId now s
      removeUnlisted groupId now desired rest s'

/-- `updateGroup`'s addition pass: for each desired id not currently a member
(checked against the live group state), `addMembership`. -/
def addMissing (groupId now : String) :
    List String → State → Except String State
  | [], s => Except.ok s
  | scheduleId :: rest, s =>
    let current := ((findGroup s groupId).map InternalGroup.scheduleIds).getD []
    if scheduleId ∈ current then addMissing groupId now rest s
    else do
      let s' ← addMembership groupId scheduleId now s
      addMissing groupId now rest s'

/-- The tail of `updateGroup`: the optional `isActive` override and the
`group.updatedAt = now` bump. -/
def finishUpdate (groupId : String) (isActive : Option Bool) (now : String)
    (s : State) : State :=
  updateGroupIn s groupId fun g =>
    { g with isActive := isActive.getD g.isActive, updatedAt := now }

/-- `MockScheduleAdapter.updateGroup(input)` before the final
`enforceActivation`. -/
def updateGroupCore (input : UpdateScheduleGroupInput) (now : String)
    (s : State) : Except String State :=
  match findGroup s input.groupId with
  | none =>
    let gid := input.groupId
    Except.error s!"Schedule group {gid} not found"
  | some _ =>
    let gid := input.groupId
    let s1 := updateGroupIn s gid fun g =>
      { g with
        name := input.name.getD g.name
        description :=
          match input.description with
          | some d => some d
          | none => g.description }
    match input.scheduleIds with
    | none => Except.ok (finishUpdate gid input.isActive now s1)
    | some sids =>
      let desired := dedup sids
      let snapshot := ((findGroup s1 gid).map InternalGroup.scheduleIds).getD []
      do
        let s2 ← removeUnlisted gid now desired snapshot s1
        let s3 ← addMissing gid now desired s2
        let s4 :=
          if (((findGroup s3 gid).map InternalGroup.scheduleIds).getD []).isEmpty then
            updateGroupIn s3 gid fun g => { g with isActive := false }
          else s3
        Except.ok (finishUpdate gid input.isActive now s4)

/-- `MockScheduleAdapter.updateGroup(input)`. -/
def updateGroup (input : UpdateScheduleGroupInput) (now : String) (s : State) :
    Except String State :=
  (updateGroupCore input now s).map (enforceActivation now)

/-- `MockScheduleAdapter.toggleGroupActivation(groupId, active)`. -/
def toggleGroupActivation (groupId : String) (active : Bool) (now : String)
    (s : State) : Except String State :=
  match findGroup s groupId with
  | none => Except.error s!"Schedule group {groupId} not found"
  | some _ =>
    Except.ok (enforceActivation now
      (updateGroupIn s groupId fun g => { g with isActive := active, updatedAt := now }))

/-- The group operations named by the group invariant: create group, update
group, toggle activation, delete schedule. -/
inductive GOp where
  | createG (input : CreateScheduleGroupInput) (freshGid now : String)
  | updateG (input : UpdateScheduleGroupInput) (now : String)
  | toggleActivation (groupId : String) (active : Bool) (now : String)
  | deleteS (scheduleId now : String)

/-- Run one group operation against the adapter state. -/
def runGOp : GOp → State → Except String State
  | GOp.createG input freshGid now, s => createGroup input freshGid now s
  | GOp.updateG input now, s => updateGroup input now s
  | GOp.toggleActivation gid active now, s => toggleGroupActivation gid active now s
  | GOp.deleteS sid now, s => deleteSchedule sid now s

/-- The invariant `enforceActivation` actually establishes: every schedule
with a non-empty membership entry is enabled exactly when one of its groups is
active. -/
def schedInvCheck (s : State) (sch : DeviceSchedule) : Bool :=
  match s.memberships.lookup sch.id with
  | none => true
  | some gids => gids.isEmpty || (sch.enabled == gids.any (isActiveGroupId s))

/-- The group/enabled consistency invariant over the whole state. -/
def GroupInv (s : State) : Bool :=
  s.schedules.all (schedInvCheck s)

/-- How many members of `g` are enabled (the spec's per-group mutual-exclusion
count). -/
def enabledMembersCount (s : State) (g : InternalGroup) : Nat :=
  (g.scheduleIds.filter fun sid =>
    match findSchedule s sid with
    | some sch => sch.enabled
    | none => false).length

/-- The spec's claimed group invariant: every group has at most one enabled
member. -/
def atMostOneEnabledMember (s : State) : Bool :=
  s.groups.all fun g => decide (enabledMembersCount s g ≤ 1)

/-- The spec's claimed membership invariant: every schedule belongs to at most
one group. -/
def atMostOneGroupEach (s : State) : Bool :=
  s.schedules.all fun sch => decide (sch.groupIds.length ≤ 1)

/-- `handleSubmitGroup`'s resolution of the submitted active schedule id:
`scheduleIds.includes(values.activeScheduleId ?? "") ? values.activeScheduleId
: scheduleIds[0]`. -/
def resolveActiveScheduleId (scheduleIds : List String)
    (requested : Option String) : Option String :=
  if requested.getD "" ∈ scheduleIds then requested else scheduleIds.head?

/-- `Math.max(1, Number.parseInt(form.interval, 10) || 1)` from
`handleSubmit`.  The `parseInt` result is passed in already parsed: `none`
for `NaN`; `0 || 1` is `1` because `0` is falsy. -/
def normalizeInterval (parsed : Option Int) : Int :=
  max 1 (match parsed with
    | none => 1
    | some v => if v = 0 then 1 else v)

/-- The inputs `buildRecurrence` receives from `handleSubmit`, with the two
JavaScript `Date`/`Intl` reads passed in as values: `startDay` is
`startDate.getDate()` (always 1..31 for a valid date) and `startWeekday` is
`new Intl.DateTimeFormat("en-US", { weekday: "short" }).format(startDate)`
(one of the seven three-letter names for a valid date). -/
structure BuildRecurrenceParams where
  type : ScheduleRecurrenceType
  startDay : Int
  startWeekday : String
  interval : Int
  daysOfWeek : List String
  dayOfMonth : Option Int
  untilTs : Option String
deriving DecidableEq, Repr

/-- `ScheduleModal.buildRecurrence(params)`. -/
def buildRecurrence (p : BuildRecurrenceParams) : ScheduleRecurrence :=
  match p.type with
  | ScheduleRecurrenceType.one_shot => { type := ScheduleRecurrenceType.one_shot }
  | ScheduleRecurrenceType.daily =>
    { type := ScheduleRecurrenceType.daily
      interval := some p.interval
      untilTs := p.untilTs }
  | ScheduleRecurrenceType.weekly =>
    let normalizedDays :=
      if p.daysOfWeek.length > 0 then p.daysOfWeek
      else [p.startWeekday.take 3]
    { type := ScheduleRecurrenceType.weekly
      interval := some p.interval
      daysOfWeek := some normalizedDays
      untilTs := p.untilTs }
  | ScheduleRecurrenceType.monthly =>
    let normalizedDay :=
      match p.dayOfMonth with
      | some v => if 1 ≤ v ∧ v ≤ 31 then v else p.startDay
      | none => p.startDay
    { type := ScheduleRecurrenceType.monthly
      interval := some p.interval
      dayOfMonth := some normalizedDay
      untilTs := p.untilTs }

/-- The seven short weekday names `Intl.DateTimeFormat("en-US",
{weekday:"short"})` can produce. -/
def weekdayShortNames : List String :=
  ["Sun", "Mon", "Tue", "Wed", "Thu", "Fri", "Sat"]

/-- The recurrence-relevant fields of the schedule form after `handleSubmit`
has parsed them (`intervalParsed` is `Number.parseInt(form.interval, 10)`,
`dayOfMonthParsed` is `Number.parseInt(form.dayOfMonth, 10)`, `none` standing
for `NaN`; the start/end presence and ordering checks that precede the
recurrence handling are independent of it and assumed already passed). -/
structure ScheduleFormParsed where
  label : String
  description : Option String
  startISO : String
  endISO : String
  startAction : ScheduleAction
  endAction : ScheduleAction
  recurrenceType : ScheduleRecurrenceType
  intervalParsed : Option Int
  daysOfWeek : List String
  dayOfMonthParsed : Option Int
  untilISO : Option String
  startDay : Int
  startWeekday : String
deriving DecidableEq, Repr

/-- The recurrence `handleSubmit` builds: `buildRecurrence` applied to the
form fields, with the interval already clamped by `normalizeInterval`. -/
def formRecurrence (f : ScheduleFormParsed) : ScheduleRecurrence :=
  buildRecurrence
    { type := f.recurrenceType
      startDay := f.startDay
      startWeekday := f.startWeekday
      interval := normalizeInterval f.intervalParsed
      daysOfWeek := f.daysOfWeek
      dayOfMonth := f.dayOfMonthParsed
      untilTs := f.untilISO }

/-- `handleSubmit` → `ScheduleService.createEventForOwner` →
`MockScheduleAdapter.createSchedule`: the full creation pipeline for the
owner's schedule form (the service fills `scope="owner"`, default targets
`{devices: [], tags: [ownerKey]}`, `exceptions: []`, `enabled: true`, and no
group ids). -/
def submitScheduleForm (ownerKey : String) (f : ScheduleFormParsed)
    (freshId now : String) (s : State) : Except String DeviceSchedule × State :=
  let recurrence := formRecurrence f
  createSchedule
    { scope := ScheduleScope.owner
      ownerKey := some ownerKey
      groupIds := none
      label := f.label
      description := f.description
      targets := { devices := [], tags := [ownerKey] }
      action := f.startAction
      endAction := some f.endAction
      window := { start := f.startISO, endTs := f.endISO }
      recurrence := recurrence
      exceptions := some []
      enabled := some true }
    freshId now s

/-- Run a group operation, keeping the prior state when it errors (the UI
catches the rejection and the adapter keeps serving). -/
def runGOpD (op : GOp) (s : State) : State :=
  match runGOp op s with
  | Except.ok s' => s'
  | Except.error _ => s

/-- The identity-relevant projection of a schedule: id, scope, owner.  The
membership bookkeeping never changes these fields. -/
def schedKey (sch : DeviceSchedule) : String × ScheduleScope × Option String :=
  (sch.id, sch.scope, sch.ownerKey)

/-- A sample one-hour window. -/
def sampleWindow : ScheduleWindow :=
  { start := "2024-01-01T08:00:00.000Z", endTs := "2024-01-01T09:00:00.000Z" }

/-- A sample owner-scoped, initially disabled schedule. -/
def sampleSchedule (id : String) : DeviceSchedule :=
  { id := id
    scope := ScheduleScope.owner
    ownerKey := some "alice"
    groupIds := []
    label := "sample"
    description := none
    targets := { devices := [], tags := ["alice"] }
    action := ScheduleAction.lock
    endAction := some ScheduleAction.unlock
    window := sampleWindow
    recurrence := { type := ScheduleRecurrenceType.one_shot }
    exceptions := []
    enabled := false
    createdAt := "t0"
    updatedAt := "t0" }

/-- Two ungrouped schedules, no groups. -/
def twoScheduleState : State :=
  { schedules := [sampleSchedule "a", sampleSchedule "b"]
    groups := []
    memberships := [] }

/-- Creating an active group over both sample schedules. -/
def bothInOneActiveGroup : GOp :=
  GOp.createG
    { name := "grp", scheduleIds := ["a", "b"], isActive := some true }
    "g1" "t1"

/-- Attaching schedule `a` to a first group. -/
def attachAToG1 : GOp :=
  GOp.createG { name := "first", scheduleIds := ["a"] } "g1" "t1"

/-- Attaching schedule `a` to a second group. -/
def attachAToG2 : GOp :=
  GOp.createG { name := "second", scheduleIds := ["a"] } "g2" "t2"

/-- An empty adapter state. -/
def emptyState : State :=
  { schedules := [], groups := [], memberships := [] }

/-- A schedule form asking for a monthly recurrence with day 45 and a
non-numeric interval. -/
def badMonthlyForm : ScheduleFormParsed :=
  { label := "bad"
    description := none
    startISO := "2024-03-07T08:00:00.000Z"
    endISO := "2024-03-07T09:00:00.000Z"
    startAction := ScheduleAction.lock
    endAction := ScheduleAction.unlock
    recurrenceType := ScheduleRecurrenceType.monthly
    intervalParsed := none
    daysOfWeek := []
    dayOfMonthParsed := some 45
    untilISO := none
    startDay := 7
    startWeekday := "Thu" }

theorem enforceOne_id (hasActive : Bool) (ms : List (String × List String))
    (activeId : String → Bool) (now : String) (sch : DeviceSchedule) :
    (enforceOne hasActive ms activeId now sch).id = sch.id := by
  unfold enforceOne
  split
  · split
    · split <;> rfl
    · rfl
  · split
    · rfl
    · split
      · rfl
      · split <;> rfl

theorem enforceOne_recurrence (hasActive : Bool) (ms : List (String × List String))
    (activeId : String → Bool) (now : String) (sch : DeviceSchedule) :
    (enforceOne hasActive ms activeId now sch).recurrence = sch.recurrence := by
  unfold enforceOne
  split
  · split
    · split <;> rfl
    · rfl
  · split
    · rfl
    · split
      · rfl
      · split <;> rfl

theorem isActiveGroupId_false_of (s : State) (h : hasActiveGroup s = false)
    (gid : String) : isActiveGroupId s gid = false := by
  unfold hasActiveGroup at h
  unfold isActiveGroupId
  rw [Bool.eq_false_iff] at h ⊢
  intro hc
  rw [List.any_eq_true] at hc
  obtain ⟨g, hg, hgc⟩ := hc
  rw [Bool.and_eq_true] at hgc
  exact h (List.any_eq_true.mpr ⟨g, hg, hgc.1⟩)

theorem any_active_false_of (s : State) (h : hasActiveGroup s = false)
    (gids : List String) : gids.any (isActiveGroupId s) = false := by
  rw [Bool.eq_false_iff]
  intro hc
  rw [List.any_eq_true] at hc
  obtain ⟨gid, _, hgc⟩ := hc
  rw [isActiveGroupId_false_of s h gid] at hgc
  exact Bool.false_ne_true hgc

theorem schedInvCheck_of_none (s : State) (sch : DeviceSchedule)
    (h : s.memberships.lookup sch.id = none) : schedInvCheck s sch = true := by
  unfold schedInvCheck
  rw [h]

theorem schedInvCheck_of_some (s : State) (sch : DeviceSchedule)
    (gids : List String) (h : s.memberships.lookup sch.id = some gids) :
    schedInvCheck s sch = (gids.isEmpty || (sch.enabled == gids.any (isActiveGroupId s))) := by
  unfold schedInvCheck
  rw [h]

/-- `enforceActivation` establishes the group/enabled consistency invariant
from any state whatsoever. -/
theorem groupInv_enforceActivation (now : String) (s : State) :
    GroupInv (enforceActivation now s) = true := by
  have hms : (enforceActivation now s).memberships = s.memberships := rfl
  rw [GroupInv, List.all_eq_true]
  intro sch' hmem
  have hsch : (enforceActivation now s).schedules
      = s.schedules.map (enforceOne (hasActiveGroup s) s.memberships (isActiveGroupId s) now) := rfl
  rw [hsch, List.mem_map] at hmem
  obtain ⟨sch, _, rfl⟩ := hmem
  have hid := enforceOne_id (hasActiveGroup s) s.memberships (isActiveGroupId s) now sch
  cases hlk : s.memberships.lookup sch.id with
  | none =>
    refine schedInvCheck_of_none _ _ ?_
    rw [hms, hid]
    exact hlk
  | some gids =>
    rw [schedInvCheck_of_some _ _ gids (by rw [hms, hid]; exact hlk)]
    cases hemp : gids.isEmpty with
    | true => simp [hemp]
    | false =>
      simp only [hemp, Bool.false_or]
      have hactl : gids.any (isActiveGroupId (enforceActivation now s))
          = gids.any (isActiveGroupId s) := rfl
      rw [hactl]
      cases hA : hasActiveGroup s with
      | false =>
        rw [any_active_false_of s hA gids]
        simp only [enforceOne, hA, Bool.not_false, if_true, hlk, Option.isSome_some]
        cases he : sch.enabled with
        | false => simp [he]
        | true => simp [he]
      | true =>
        simp only [enforceOne, hA, Bool.not_true, Bool.false_eq_true, if_false, hlk, hemp]
        cases hbe : sch.enabled != gids.any (isActiveGroupId s) with
        | true => simp [hbe]
        | false =>
          simp only [hbe, Bool.false_eq_true, if_false]
          rw [bne_eq_false_iff_eq] at hbe
          simp [hbe]

/-- C1 counterexample: the claimed invariant "every group has at most one
member with `enabled=true`" is already false after one `createGroup` call:
creating an active group over the two sample schedules leaves BOTH members
enabled (`enforceActivation` enables every member of an active group). -/
theorem C1_counterexample :
    (match runGOp bothInOneActiveGroup twoScheduleState with
     | Except.ok s' => atMostOneEnabledMember s'
     | Except.error _ => true) = false := by decide

/-- C1 (amended): after any error-free group operation (`createGroup`,
`updateGroup`, `toggleGroupActivation`, `deleteSchedule`), every schedule
with at least one group membership is enabled exactly when at least one of
its groups is active; groups carry a single `isActive` flag (no designated
active schedule), so an active group with several members has all of them
enabled. -/
theorem C1_group_invariant_amended (op : GOp) (s s' : State)
    (hInv : GroupInv s = true) (h : runGOp op s = Except.ok s') :
    GroupInv s' = true := by
  cases op with
  | createG input freshGid now =>
    simp only [runGOp, createGroup] at h
    cases hc : createGroupCore input freshGid now s with
    | error e => rw [hc] at h; simp [Except.map] at h
    | ok t =>
      rw [hc] at h
      simp only [Except.map, Except.ok.injEq] at h
      subst h
      exact groupInv_enforceActivation now t
  | updateG input now =>
    simp only [runGOp, updateGroup] at h
    cases hc : updateGroupCore input now s with
    | error e => rw [hc] at h; simp [Except.map] at h
    | ok t =>
      rw [hc] at h
      simp only [Except.map, Except.ok.injEq] at h
      subst h
      exact groupInv_enforceActivation now t
  | toggleActivation gid active now =>
    simp only [runGOp, toggleGroupActivation] at h
    cases hg : findGroup s gid with
    | none => rw [hg] at h; exact absurd h (by simp)
    | some g =>
      rw [hg] at h
      simp only [Except.ok.injEq] at h
      subst h
      exact groupInv_enforceActivation now _
  | deleteS sid now =>
    simp only [runGOp, deleteSchedule] at h
    split at h
    · cases h
      exact hInv
    · split at h
      · exact absurd h (by simp)
      · cases h
        exact groupInv_enforceActivation now _

/-- C1 witness: the amended invariant applied to a concrete `createGroup`
over the two-schedule sample state. -/
theorem C1_witness :
    GroupInv (runGOpD bothInOneActiveGroup twoScheduleState) = true :=
  C1_group_invariant_amended bothInOneActiveGroup twoScheduleState
    (runGOpD bothInOneActiveGroup twoScheduleState) (by decide) (by rfl)

theorem map_id_of_mem {α : Type} (l : List α) (f : α → α) (h : ∀ x ∈ l, f x = x) :
    l.map f = l := by
  induction l with
  | nil => rfl
  | cons a t ih =>
    rw [List.map_cons, h a (List.mem_cons_self a t),
      ih fun x hx => h x (List.mem_cons_of_mem a hx)]

theorem lookup_isSome_of_key {β : Type} (ms : List (String × β)) (k : String)
    (h : ∃ p ∈ ms, p.1 = k) : (ms.lookup k).isSome = true := by
  induction ms with
  | nil =>
    obtain ⟨p, hp, _⟩ := h
    cases hp
  | cons a t ih =>
    obtain ⟨p, hp, hk⟩ := h
    simp only [List.lookup]
    cases hbeq : k == a.1 with
    | true => rfl
    | false =>
      rcases List.mem_cons.mp hp with rfl | hpt
      · rw [hk, beq_self_eq_true] at hbeq
        cases hbeq
      · exact ih ⟨p, hpt, hk⟩

/-- C2 counterexample: a schedule can be a member of two groups at once —
creating two groups over the same schedule `a` leaves `a.groupIds =
["g1", "g2"]`, so "each schedule belongs to at most one group" is false in
this reachable state. -/
theorem C2_counterexample :
    (match runGOp attachAToG1 twoScheduleState with
     | Except.ok s1 =>
       match runGOp attachAToG2 s1 with
       | Except.ok s2 => atMostOneGroupEach s2
       | Except.error _ => true
     | Except.error _ => true) = false := by decide

/-- C2 (amended): group membership behaves as a set per (schedule, group)
pair — attaching a schedule to a group it already consistently belongs to is
a complete no-op — but nothing prevents one schedule from belonging to
several distinct groups. -/
theorem C2_membership_amended (groupId scheduleId now : String) (s : State)
    (hsched : ∃ sch ∈ s.schedules, sch.id = scheduleId)
    (hin : ∀ sch ∈ s.schedules, sch.id = scheduleId → groupId ∈ sch.groupIds)
    (hgrp : ∀ g ∈ s.groups, g.id = groupId → scheduleId ∈ g.scheduleIds)
    (hms : ∀ p ∈ s.memberships, p.1 = scheduleId → groupId ∈ p.2)
    (hentry : ∃ p ∈ s.memberships, p.1 = scheduleId) :
    addMembership groupId scheduleId now s = Except.ok s := by
  unfold addMembership
  cases hf : findSchedule s scheduleId with
  | none =>
    obtain ⟨sch0, hmem0, hid0⟩ := hsched
    rw [findSchedule, List.find?_eq_none] at hf
    exact absurd (by rw [hid0]; exact decide_eq_true rfl) (hf sch0 hmem0)
  | some sched =>
    have hf' : s.schedules.find? (fun sch => decide (sch.id = scheduleId)) = some sched := hf
    have hschedmem : sched ∈ s.schedules := List.mem_of_find?_eq_some hf'
    have hp := @List.find?_some _ _ sched _ hf'
    have hschedid : sched.id = scheduleId := of_decide_eq_true hp
    have hgin : groupId ∈ sched.groupIds := hin sched hschedmem hschedid
    dsimp only
    rw [if_pos hgin]
    have hgroups : (updateGroupIn s groupId fun g =>
        { g with scheduleIds := setInsert g.scheduleIds scheduleId }) = s := by
      unfold updateGroupIn
      have : (s.groups.map fun g =>
          if g.id = groupId then { g with scheduleIds := setInsert g.scheduleIds scheduleId }
          else g) = s.groups := by
        refine map_id_of_mem _ _ fun g hg => ?_
        by_cases hid : g.id = groupId
        · rw [if_pos hid]
          unfold setInsert
          rw [if_pos (hgrp g hg hid)]
        · rw [if_neg hid]
      rw [this]
    rw [hgroups]
    have hmsadd : msAdd s.memberships scheduleId groupId = s.memberships := by
      unfold msAdd
      cases hlk : s.memberships.lookup scheduleId with
      | none =>
        have := lookup_isSome_of_key s.memberships scheduleId hentry
        rw [hlk] at this
        cases this
      | some gids =>
        refine map_id_of_mem _ _ fun p hp => ?_
        by_cases hk : p.1 = scheduleId
        · rw [if_pos hk]
          unfold setInsert
          rw [if_pos (hms p hp hk)]
        · rw [if_neg hk]
    rw [hmsadd]

/-- C2 witness: re-attaching schedule `a` to the group `g1` it already
belongs to changes nothing. -/
theorem C2_witness :
    addMembership "g1" "a" "t3" (runGOpD attachAToG1 twoScheduleState)
      = Except.ok (runGOpD attachAToG1 twoScheduleState) :=
  C2_membership_amended "g1" "a" "t3" (runGOpD attachAToG1 twoScheduleState)
    (by decide) (by decide) (by decide) (by decide) (by decide)

/-- C4: when the source owner has no owner-scoped schedules,
`copyOwnerSchedules` returns `created=[]`, `replacedCount=0` and leaves the
whole store untouched, for every mode — including `replace`. -/
theorem C4_empty_source_copy_noop (sourceOwner targetOwner : String)
    (mode : CopyMode) (freshId : Nat → String) (now : String) (s : State)
    (h : s.schedules.filter (isOwnerOf sourceOwner) = []) :
    copyOwnerSchedules sourceOwner targetOwner mode freshId now s
      = (Except.ok ([], 0), s) := by
  unfold copyOwnerSchedules
  rw [h]
  rfl

/-- C4 witness: copying from the schedule-less owner `ghost` into `alice` in
replace mode leaves `alice`'s two schedules alone. -/
theorem C4_witness :
    copyOwnerSchedules "ghost" "alice" CopyMode.replace (fun _ => "fresh") "t5"
      twoScheduleState = (Except.ok ([], 0), twoScheduleState) :=
  C4_empty_source_copy_noop "ghost" "alice" CopyMode.replace (fun _ => "fresh")
    "t5" twoScheduleState (by decide)

/-- C5: cloning an existing schedule copies `targets`, `action`, `endAction`,
`window`, `recurrence` and `exceptions` verbatim, under a fresh id distinct
from the source's, with `scope=owner`, `ownerKey=targetOwner`, no group
membership and `enabled=true`; the store only gains the clone. -/
theorem C5_clone_content (scheduleId targetOwner freshId now : String)
    (s : State) (source : DeviceSchedule)
    (hf : findSchedule s scheduleId = some source)
    (hfresh : freshId ≠ source.id) :
    ∃ c : DeviceSchedule,
      cloneSchedule scheduleId targetOwner freshId now s
        = (Except.ok c, { s with schedules := s.schedules ++ [c] })
      ∧ c.targets = source.targets ∧ c.action = source.action
      ∧ c.endAction = source.endAction ∧ c.window = source.window
      ∧ c.recurrence = source.recurrence ∧ c.exceptions = source.exceptions
      ∧ c.id = freshId ∧ c.id ≠ source.id
      ∧ c.scope = ScheduleScope.owner ∧ c.ownerKey = some targetOwner
      ∧ c.groupIds = ([] : List String) ∧ c.enabled = true := by
  refine ⟨{ source with
      id := freshId
      scope := ScheduleScope.owner
      ownerKey := some targetOwner
      groupIds := []
      enabled := true
      createdAt := now
      updatedAt := now },
    ?_, rfl, rfl, rfl, rfl, rfl, rfl, rfl, hfresh, rfl, rfl, rfl, rfl⟩
  unfold cloneSchedule
  rw [hf]

/-- C5 witness: cloning the sample schedule `a` for owner `bob`. -/
theorem C5_witness :
    ∃ c : DeviceSchedule,
      cloneSchedule "a" "bob" "fresh-1" "t6" twoScheduleState
        = (Except.ok c,
           { twoScheduleState with schedules := twoScheduleState.schedules ++ [c] })
      ∧ c.targets = (sampleSchedule "a").targets
      ∧ c.action = (sampleSchedule "a").action
      ∧ c.endAction = (sampleSchedule "a").endAction
      ∧ c.window = (sampleSchedule "a").window
      ∧ c.recurrence = (sampleSchedule "a").recurrence
      ∧ c.exceptions = (sampleSchedule "a").exceptions
      ∧ c.id = "fresh-1" ∧ c.id ≠ (sampleSchedule "a").id
      ∧ c.scope = ScheduleScope.owner ∧ c.ownerKey = some "bob"
      ∧ c.groupIds = ([] : List String) ∧ c.enabled = true :=
  C5_clone_content "a" "bob" "fresh-1" "t6" twoScheduleState
    (sampleSchedule "a") (by decide) (by decide)

/-- C6: cloning a schedule id that is not in the store fails with the
`Schedule … not found` error and leaves the store exactly as it was. -/
theorem C6_clone_missing (scheduleId targetOwner freshId now : String)
    (s : State) (h : findSchedule s scheduleId = none) :
    cloneSchedule scheduleId targetOwner freshId now s
      = (Except.error s!"Schedule {scheduleId} not found", s) := by
  unfold cloneSchedule
  rw [h]

/-- C6 witness: cloning the unknown id `nope` fails and changes nothing. -/
theorem C6_witness :
    cloneSchedule "nope" "bob" "fresh-2" "t7" twoScheduleState
      = (Except.error "Schedule nope not found", twoScheduleState) :=
  C6_clone_missing "nope" "bob" "fresh-2" "t7" twoScheduleState (by decide)

/-- C10: deleting a schedule id that is not in the store resolves silently
and leaves schedules, groups and memberships untouched. -/
theorem C10_delete_missing_noop (scheduleId now : String) (s : State)
    (h : ∀ sch ∈ s.schedules, sch.id ≠ scheduleId) :
    deleteSchedule scheduleId now s = Except.ok s := by
  have hf : findSchedule s scheduleId = none := by
    unfold findSchedule
    rw [List.find?_eq_none]
    intro x hx
    simp only [decide_eq_true_eq]
    exact h x hx
  unfold deleteSchedule
  rw [hf]

/-- C10 witness: deleting the unknown id `nope` is a silent no-op. -/
theorem C10_witness :
    deleteSchedule "nope" "t8" twoScheduleState = Except.ok twoScheduleState :=
  C10_delete_missing_noop "nope" "t8" twoScheduleState (by decide)

/-- C9: a weekly recurrence built with an empty day selection defaults to the
singleton list holding the anchor start date's three-letter weekday, so the
stored weekly rule never has an empty `daysOfWeek`. -/
theorem weekday_take_three (w : String) (hw : w ∈ weekdayShortNames) :
    w.take 3 = w ∧ w.length = 3 := by
  simp only [weekdayShortNames, List.mem_cons, List.not_mem_nil, or_false] at hw
  rcases hw with rfl | rfl | rfl | rfl | rfl | rfl | rfl <;> exact ⟨by decide, by decide⟩

theorem C9_weekly_default (p : BuildRecurrenceParams)
    (ht : p.type = ScheduleRecurrenceType.weekly)
    (hd : p.daysOfWeek = [])
    (hw : p.startWeekday ∈ weekdayShortNames) :
    (buildRecurrence p).daysOfWeek = some [p.startWeekday]
      ∧ p.startWeekday.length = 3
      ∧ [p.startWeekday] ≠ ([] : List String) := by
  have htake := weekday_take_three p.startWeekday hw
  refine ⟨?_, htake.2, by simp⟩
  simp [buildRecurrence, ht, hd, htake.1]

/-- C9 witness: a weekly rule anchored on a Monday with no selected days. -/
theorem C9_witness :
    (buildRecurrence
      { type := ScheduleRecurrenceType.weekly
        startDay := 1
        startWeekday := "Mon"
        interval := 1
        daysOfWeek := []
        dayOfMonth := none
        untilTs := none }).daysOfWeek = some ["Mon"]
      ∧ ("Mon" : String).length = 3 ∧ (["Mon"] : List String) ≠ [] :=
  C9_weekly_default _ (by decide) (by decide) (by decide)

theorem findGroup_append_eq (s : State) (g : InternalGroup) (gid : String)
    (hid : g.id = gid) (hfresh : ∀ gg ∈ s.groups, gg.id ≠ gid) :
    findGroup { s with groups := s.groups ++ [g] } gid = some g := by
  unfold findGroup
  dsimp only
  rw [List.find?_append]
  have h1 : s.groups.find? (fun gg => decide (gg.id = gid)) = none := by
    rw [List.find?_eq_none]
    intro x hx
    simp only [decide_eq_true_eq]
    exact hfresh x hx
  rw [h1]
  simp [List.find?, hid]

theorem createGroup_empty_members (input : CreateScheduleGroupInput)
    (freshGid now : String) (s : State)
    (hemp : input.scheduleIds = [])
    (hfresh : ∀ gg ∈ s.groups, gg.id ≠ freshGid) :
    ∃ s', createGroup input freshGid now s = Except.ok s'
      ∧ ∃ g ∈ s'.groups, g.id = freshGid ∧ g.scheduleIds = ([] : List String)
          ∧ g.isActive = false := by
  unfold createGroup createGroupCore
  rw [hemp]
  simp only [attachAll, Except.map]
  rw [findGroup_append_eq s _ freshGid rfl hfresh]
  simp only [Option.map_some', Option.getD_some, List.isEmpty_nil, if_true]
  refine ⟨_, rfl, ?_⟩
  unfold updateGroupIn enforceActivation
  dsimp only
  rw [List.map_append]
  refine ⟨{ id := freshGid, name := input.name, ownerKey := input.ownerKey,
            description := input.description, isActive := false,
            createdAt := now, updatedAt := now, scheduleIds := [] },
    ?_, rfl, rfl, rfl⟩
  rw [List.mem_append]
  right
  simp

/-- C8: (i) when the group form's `activeScheduleId` is omitted or names a
schedule outside the submitted list, the submitted active schedule id
defaults to the first listed schedule id (for the id lists the form can
produce, which never contain the empty string); (ii) the adapter's
`createGroup` with an empty membership produces a group with no members and
`isActive=false` — no active member. -/
theorem C8_default_active_schedule :
    (∀ (scheduleIds : List String) (requested : Option String),
      "" ∉ scheduleIds →
      (requested = none ∨ ∃ a, requested = some a ∧ a ∉ scheduleIds) →
      ∀ first rest, scheduleIds = first :: rest →
      resolveActiveScheduleId scheduleIds requested = some first)
    ∧ (∀ (input : CreateScheduleGroupInput) (freshGid now : String) (s : State),
      input.scheduleIds = [] →
      (∀ gg ∈ s.groups, gg.id ≠ freshGid) →
      ∃ s', createGroup input freshGid now s = Except.ok s'
        ∧ ∃ g ∈ s'.groups, g.id = freshGid ∧ g.scheduleIds = ([] : List String)
            ∧ g.isActive = false) := by
  constructor
  · intro ids req hnin hcase first rest hids
    unfold resolveActiveScheduleId
    rcases hcase with rfl | ⟨a, rfl, ha⟩
    · rw [if_neg (by simpa using hnin), hids]
      rfl
    · rw [if_neg (by simpa using ha), hids]
      rfl
  · intro input freshGid now s hemp hfresh
    exact createGroup_empty_members input freshGid now s hemp hfresh

/-- C8 witness: an omitted active id over `["s1", "s2"]` resolves to `s1`,
and creating a memberless group yields an inactive group. -/
theorem C8_witness :
    resolveActiveScheduleId ["s1", "s2"] none = some "s1"
      ∧ ∃ s', createGroup { name := "empty", scheduleIds := [] } "g9" "t9" emptyState
          = Except.ok s'
        ∧ ∃ g ∈ s'.groups, g.id = "g9" ∧ g.scheduleIds = ([] : List String)
            ∧ g.isActive = false :=
  ⟨C8_default_active_schedule.1 ["s1", "s2"] none (by decide) (Or.inl rfl)
      "s1" ["s2"] rfl,
   C8_default_active_schedule.2 { name := "empty", scheduleIds := [] }
      "g9" "t9" emptyState rfl (by decide)⟩

theorem enforceActivation_length (now : String) (t : State) :
    (enforceActivation now t).schedules.length = t.schedules.length := by
  unfold enforceActivation
  dsimp only
  rw [List.length_map]

theorem findSchedule_enforce_append (now : String) (s : State)
    (sched : DeviceSchedule) (sid : String) (hid : sched.id = sid)
    (hfresh : ∀ sch ∈ s.schedules, sch.id ≠ sid) :
    findSchedule
        (enforceActivation now { s with schedules := s.schedules ++ [sched] }) sid
      = some (enforceOne (hasActiveGroup s) s.memberships (isActiveGroupId s)
          now sched) := by
  unfold findSchedule enforceActivation
  dsimp only
  rw [show hasActiveGroup { s with schedules := s.schedules ++ [sched] }
        = hasActiveGroup s from rfl,
      show isActiveGroupId { s with schedules := s.schedules ++ [sched] }
        = isActiveGroupId s from rfl,
      List.map_append, List.find?_append]
  have h1 : ((s.schedules.map
      (enforceOne (hasActiveGroup s) s.memberships (isActiveGroupId s) now)).find?
        fun sch => decide (sch.id = sid)) = none := by
    rw [List.find?_eq_none]
    intro x hx
    rw [List.mem_map] at hx
    obtain ⟨y, hy, rfl⟩ := hx
    simp only [decide_eq_true_eq, enforceOne_id]
    exact hfresh y hy
  rw [h1]
  simp [List.find?, enforceOne_id, hid]

theorem buildRecurrence_monthly_day (p : BuildRecurrenceParams)
    (ht : p.type = ScheduleRecurrenceType.monthly)
    (hday : 1 ≤ p.startDay ∧ p.startDay ≤ 31) :
    ∃ d, (buildRecurrence p).dayOfMonth = some d ∧ 1 ≤ d ∧ d ≤ 31 := by
  unfold buildRecurrence
  rw [ht]
  dsimp only
  cases hp : p.dayOfMonth with
  | none => exact ⟨p.startDay, rfl, hday.1, hday.2⟩
  | some v =>
    dsimp only
    by_cases hv : 1 ≤ v ∧ v ≤ 31
    · rw [if_pos hv]
      exact ⟨v, rfl, hv.1, hv.2⟩
    · rw [if_neg hv]
      exact ⟨p.startDay, rfl, hday.1, hday.2⟩

/-- C7 counterexample: submitting the monthly form with `dayOfMonth = "45"`
(out of range) and a non-numeric interval does not raise any error — the
pipeline persists a schedule whose recurrence was silently normalized to
`interval = 1`, `dayOfMonth = 7` (the anchor start date's day). -/
theorem C7_counterexample :
    (match submitScheduleForm "alice" badMonthlyForm "id1" "t1" emptyState with
     | (Except.ok sch, s') =>
       decide (sch.recurrence =
         { type := ScheduleRecurrenceType.monthly
           interval := some 1
           dayOfMonth := some 7
           untilTs := none })
         && decide (s'.schedules.length = 1)
     | (Except.error _, _) => false) = true := by decide

/-- C7 (amended): invalid recurrence parameters are normalized, not
rejected — the interval is clamped to at least 1 (non-numeric, zero and
negative inputs all become 1), an out-of-range or non-numeric `dayOfMonth`
falls back to the anchor start date's day of month (hence stays in 1..31),
no validation error is raised, and the schedule is persisted with the
normalized recurrence. -/
theorem C7_recurrence_normalized_amended (ownerKey : String)
    (f : ScheduleFormParsed) (freshId now : String) (s : State)
    (hday : 1 ≤ f.startDay ∧ f.startDay ≤ 31)
    (hfresh : ∀ sch ∈ s.schedules, sch.id ≠ freshId) :
    ∃ sch s',
      submitScheduleForm ownerKey f freshId now s = (Except.ok sch, s')
      ∧ s'.schedules.length = s.schedules.length + 1
      ∧ sch.recurrence = formRecurrence f
      ∧ 1 ≤ normalizeInterval f.intervalParsed
      ∧ (f.recurrenceType = ScheduleRecurrenceType.monthly →
          ∃ d, (formRecurrence f).dayOfMonth = some d ∧ 1 ≤ d ∧ d ≤ 31) := by
  have heq : submitScheduleForm ownerKey f freshId now s
      = (Except.ok (enforceOne (hasActiveGroup s) s.memberships (isActiveGroupId s) now
          { id := freshId, scope := ScheduleScope.owner, ownerKey := some ownerKey,
            groupIds := [], label := f.label, description := f.description,
            targets := { devices := [], tags := [ownerKey] },
            action := f.startAction, endAction := some f.endAction,
            window := { start := f.startISO, endTs := f.endISO },
            recurrence := formRecurrence f, exceptions := [], enabled := true,
            createdAt := now, updatedAt := now }),
         enforceActivation now { s with schedules := s.schedules ++
          [{ id := freshId, scope := ScheduleScope.owner, ownerKey := some ownerKey,
             groupIds := [], label := f.label, description := f.description,
             targets := { devices := [], tags := [ownerKey] },
             action := f.startAction, endAction := some f.endAction,
             window := { start := f.startISO, endTs := f.endISO },
             recurrence := formRecurrence f, exceptions := [], enabled := true,
             createdAt := now, updatedAt := now }] }) := by
    unfold submitScheduleForm createSchedule
    dsimp only
    simp only [attachEnsured, Option.getD_none, Option.getD_some]
    rw [findSchedule_enforce_append now s _ freshId rfl hfresh]
  refine ⟨_, _, heq, ?_, ?_, le_max_left 1 _, ?_⟩
  · rw [enforceActivation_length]
    simp
  · rw [enforceOne_recurrence]
  · intro ht
    exact buildRecurrence_monthly_day _ ht hday

/-- C7 witness: the amended statement at the bad monthly form on the empty
store. -/
theorem C7_witness :
    ∃ sch s',
      submitScheduleForm "alice" badMonthlyForm "id1" "t1" emptyState
        = (Except.ok sch, s')
      ∧ s'.schedules.length = emptyState.schedules.length + 1
      ∧ sch.recurrence = formRecurrence badMonthlyForm
      ∧ 1 ≤ normalizeInterval badMonthlyForm.intervalParsed
      ∧ (badMonthlyForm.recurrenceType = ScheduleRecurrenceType.monthly →
          ∃ d, (formRecurrence badMonthlyForm).dayOfMonth = some d
            ∧ 1 ≤ d ∧ d ≤ 31) :=
  C7_recurrence_normalized_amended "alice" badMonthlyForm "id1" "t1" emptyState
    (by decide) (by decide)

theorem map_map_key {α β : Type} (l : List α) (u : α → α) (k : α → β)
    (h : ∀ x, k (u x) = k x) : (l.map u).map k = l.map k := by
  induction l with
  | nil => rfl
  | cons a t ih => simp only [List.map_cons, h a, ih]

theorem any_id_of_schedKeys (l l' : List DeviceSchedule) (k : String)
    (h : l'.map schedKey = l.map schedKey) :
    l'.any (fun sch => decide (sch.id = k)) = l.any (fun sch => decide (sch.id = k)) := by
  have haux : ∀ m : List DeviceSchedule,
      m.any (fun sch => decide (sch.id = k))
        = (m.map schedKey).any (fun p => decide (p.1 = k)) := by
    intro m
    induction m with
    | nil => rfl
    | cons a t ih => simp only [List.any_cons, List.map_cons, ih, schedKey]
  rw [haux, haux, h]

theorem any_gid_of_groupIds (l l' : List InternalGroup) (k : String)
    (h : l'.map InternalGroup.id = l.map InternalGroup.id) :
    l'.any (fun g => decide (g.id = k)) = l.any (fun g => decide (g.id = k)) := by
  have haux : ∀ m : List InternalGroup,
      m.any (fun g => decide (g.id = k))
        = (m.map InternalGroup.id).any (fun i => decide (i = k)) := by
    intro m
    induction m with
    | nil => rfl
    | cons a t ih => simp only [List.any_cons, List.map_cons, ih]
  rw [haux, haux, h]

theorem removeMembership_ok (groupId scheduleId now : String) (s : State)
    (hs : s.schedules.any (fun x => decide (x.id = scheduleId)) = true) :
    ∃ t, removeMembership groupId scheduleId now s = Except.ok t
      ∧ t.schedules.map schedKey = s.schedules.map schedKey
      ∧ t.groups.map InternalGroup.id = s.groups.map InternalGroup.id := by
  have hfs : ∃ sched, findSchedule s scheduleId = some sched := by
    cases hf : findSchedule s scheduleId with
    | some sched => exact ⟨sched, rfl⟩
    | none =>
      rw [findSchedule, List.find?_eq_none] at hf
      obtain ⟨x, hx, hp⟩ := List.any_eq_true.mp hs
      exact absurd hp (hf x hx)
  obtain ⟨sched, hf⟩ := hfs
  unfold removeMembership
  rw [hf]
  dsimp only
  by_cases hgi : groupId ∈ sched.groupIds
  · rw [if_pos hgi]
    refine ⟨_, rfl, ?_, ?_⟩
    · dsimp only
      exact map_map_key _ _ _ fun x => by
        by_cases hx : x.id = scheduleId
        · rw [if_pos hx]
          rfl
        · rw [if_neg hx]
    · dsimp only
      exact map_map_key _ _ _ fun g => by
        by_cases hg : g.id = groupId
        · rw [if_pos hg]
        · rw [if_neg hg]
  · rw [if_neg hgi]
    refine ⟨_, rfl, rfl, ?_⟩
    dsimp only
    exact map_map_key _ _ _ fun g => by
      by_cases hg : g.id = groupId
      · rw [if_pos hg]
      · rw [if_neg hg]

theorem detachFromGroups_ok (scheduleId now : String) (gids : List String)
    (s : State)
    (hs : s.schedules.any (fun x => decide (x.id = scheduleId)) = true)
    (hg : ∀ gid ∈ gids, s.groups.any (fun g => decide (g.id = gid)) = true) :
    ∃ s', detachFromGroups scheduleId now gids s = Except.ok s'
      ∧ s'.schedules.map schedKey = s.schedules.map schedKey
      ∧ s'.groups.map InternalGroup.id = s.groups.map InternalGroup.id := by
  induction gids generalizing s with
  | nil => exact ⟨s, rfl, rfl, rfl⟩
  | cons gid rest ih =>
    have hfg : ∃ g, findGroup s gid = some g := by
      cases hf : findGroup s gid with
      | some g => exact ⟨g, rfl⟩
      | none =>
        rw [findGroup, List.find?_eq_none] at hf
        obtain ⟨g, hgm, hp⟩ := List.any_eq_true.mp (hg gid (List.mem_cons_self gid rest))
        exact absurd hp (hf g hgm)
    obtain ⟨g, hfg⟩ := hfg
    obtain ⟨t, hrm, hk1, hk2⟩ := removeMembership_ok gid scheduleId now s hs
    have hst : t.schedules.any (fun x => decide (x.id = scheduleId)) = true := by
      rw [any_id_of_schedKeys s.schedules t.schedules scheduleId hk1]
      exact hs
    have hgt : ∀ gid' ∈ rest, t.groups.any (fun g => decide (g.id = gid')) = true := by
      intro gid' hm
      rw [any_gid_of_groupIds s.groups t.groups gid' hk2]
      exact hg gid' (List.mem_cons_of_mem gid hm)
    obtain ⟨s', hrec, hj1, hj2⟩ := ih t hst hgt
    refine ⟨s', ?_, hj1.trans hk1, hj2.trans hk2⟩
    unfold detachFromGroups
    rw [hfg]
    dsimp only
    rw [hrm]
    exact hrec

theorem purgeSchedules_ok (now : String) (l : List DeviceSchedule) (s : State)
    (hs : ∀ sch ∈ l, s.schedules.any (fun x => decide (x.id = sch.id)) = true)
    (hg : ∀ sch ∈ l, ∀ gid ∈ sch.groupIds,
      s.groups.any (fun g => decide (g.id = gid)) = true) :
    ∃ s', purgeSchedules now l s = Except.ok s'
      ∧ s'.schedules.map schedKey = s.schedules.map schedKey
      ∧ s'.groups.map InternalGroup.id = s.groups.map InternalGroup.id := by
  induction l generalizing s with
  | nil => exact ⟨s, rfl, rfl, rfl⟩
  | cons sch rest ih =>
    obtain ⟨t, hdet, hk1, hk2⟩ :=
      detachFromGroups_ok sch.id now sch.groupIds s
        (hs sch (List.mem_cons_self sch rest))
        (hg sch (List.mem_cons_self sch rest))
    obtain ⟨s', hrec, hj1, hj2⟩ := ih
      { t with memberships := t.memberships.filter fun p => !(decide (p.1 = sch.id)) }
      (fun sch' hm => by
        have : t.schedules.any (fun x => decide (x.id = sch'.id)) = true := by
          rw [any_id_of_schedKeys s.schedules t.schedules sch'.id hk1]
          exact hs sch' (List.mem_cons_of_mem sch hm)
        exact this)
      (fun sch' hm gid hgid => by
        have : t.groups.any (fun g => decide (g.id = gid)) = true := by
          rw [any_gid_of_groupIds s.groups t.groups gid hk2]
          exact hg sch' (List.mem_cons_of_mem sch hm) gid hgid
        exact this)
    refine ⟨s', ?_, hj1.trans hk1, hj2.trans hk2⟩
    unfold purgeSchedules
    rw [hdet]
    exact hrec

theorem filter_of_not_filter {α : Type} (p : α → Bool) (l : List α) :
    (l.filter fun x => !(p x)).filter p = [] := by
  induction l with
  | nil => rfl
  | cons a t ih => cases hp : p a <;> simp [List.filter_cons, hp, ih]

theorem cloneList_length (targetOwner : String) (freshId : Nat → String)
    (now : String) (l : List DeviceSchedule) :
    (cloneList targetOwner freshId now l).length = l.length := by
  unfold cloneList
  rw [List.length_map, List.enum_length]

theorem cloneList_owned (targetOwner : String) (freshId : Nat → String)
    (now : String) (l : List DeviceSchedule) :
    ∀ c ∈ cloneList targetOwner freshId now l, isOwnerOf targetOwner c = true := by
  intro c hc
  unfold cloneList at hc
  rw [List.mem_map] at hc
  obtain ⟨⟨i, x⟩, _, rfl⟩ := hc
  unfold isOwnerOf
  simp

/-- C3: replace-mode copy with a non-empty source leaves the target owner
with exactly M owner-scoped schedules (the clones of the source's M) and
reports `replacedCount = N`, the target's previous owner-scoped count.  The
well-formedness hypothesis (every group id a target schedule carries names an
existing group) is what any state the adapter builds satisfies; without it
the removal loop's `ensureGroup` would throw. -/
theorem C3_replace_semantics (sourceOwner targetOwner : String)
    (freshId : Nat → String) (now : String) (s : State)
    (hM : s.schedules.filter (isOwnerOf sourceOwner) ≠ [])
    (hwf : ∀ sch ∈ s.schedules.filter (isOwnerOf targetOwner),
      ∀ gid ∈ sch.groupIds, s.groups.any (fun g => decide (g.id = gid)) = true) :
    ∃ created s',
      copyOwnerSchedules sourceOwner targetOwner CopyMode.replace freshId now s
        = (Except.ok (created, (s.schedules.filter (isOwnerOf targetOwner)).length), s')
      ∧ created.length = (s.schedules.filter (isOwnerOf sourceOwner)).length
      ∧ (s'.schedules.filter (isOwnerOf targetOwner)).length
          = (s.schedules.filter (isOwnerOf sourceOwner)).length := by
  have hs0 : ∀ sch ∈ s.schedules.filter (isOwnerOf targetOwner),
      s.schedules.any (fun x => decide (x.id = sch.id)) = true := by
    intro sch hm
    exact List.any_eq_true.mpr ⟨sch, List.mem_of_mem_filter hm, by simp⟩
  obtain ⟨t, hpurge, hk1, hk2⟩ :=
    purgeSchedules_ok now (s.schedules.filter (isOwnerOf targetOwner)) s hs0 hwf
  have hne : (s.schedules.filter (isOwnerOf sourceOwner)).isEmpty = false := by
    cases hflt : s.schedules.filter (isOwnerOf sourceOwner) with
    | nil => exact absurd hflt hM
    | cons a l => rfl
  refine ⟨cloneList targetOwner freshId now (s.schedules.filter (isOwnerOf sourceOwner)),
    { t with schedules :=
        (t.schedules.filter fun sch => !(isOwnerOf targetOwner sch))
          ++ cloneList targetOwner freshId now (s.schedules.filter (isOwnerOf sourceOwner)) },
    ?_, cloneList_length _ _ _ _, ?_⟩
  · unfold copyOwnerSchedules
    dsimp only
    rw [hne]
    simp only [Bool.false_eq_true, if_false]
    rw [hpurge]
    rfl
  · dsimp only
    rw [List.filter_append, filter_of_not_filter (isOwnerOf targetOwner) t.schedules,
      List.nil_append,
      List.filter_eq_self.mpr (cloneList_owned targetOwner freshId now _),
      cloneList_length]

/-- C3 witness: replacing `bob`'s (empty) schedule set with `alice`'s two. -/
theorem C3_witness :
    ∃ created s',
      copyOwnerSchedules "alice" "bob" CopyMode.replace (fun _ => "c") "t9"
          twoScheduleState
        = (Except.ok (created,
            (twoScheduleState.schedules.filter (isOwnerOf "bob")).length), s')
      ∧ created.length
          = (twoScheduleState.schedules.filter (isOwnerOf "alice")).length
      ∧ (s'.schedules.filter (isOwnerOf "bob")).length
          = (twoScheduleState.schedules.filter (isOwnerOf "alice")).length :=
  C3_replace_semantics "alice" "bob" (fun _ => "c") "t9" twoScheduleState
    (by decide) (by decide)
